import Mathlib

/-!
Verification development for the `xsession_manager` restore reconciliation
engine (`xsession_manager/xsession_manager.py`).

The Python source is shallowly embedded: each relevant method becomes a Lean
function over explicit state; external collaborators (psutil, wmctrl, wnck,
gsettings, the filesystem clock) become explicit parameters; effects become
explicit event lists; exceptions become `Except` values or outcome datatypes.
-/

namespace XSession

/-- One window record, as produced by `convert_wmctl_result_2_list` and
enriched by psutil (`XSessionConfigObject`). -/
structure XSessionConfigObject where
  pid : Nat
  window_id : Nat
  window_title : String
  desktop_number : Nat
  app_name : String
  cmd : List String
deriving DecidableEq, Repr

abbrev WRecord := XSessionConfigObject

/-- Python dict insertion semantics for `{x.pid: x for x in objects}`:
if the key is already present its value is overwritten in place,
otherwise the pair is appended at the end. -/
def dict_insert : List (Nat × WRecord) → WRecord → List (Nat × WRecord)
  | [], r => [(r.pid, r)]
  | q :: d, r => if q.1 = r.pid then (q.1, r) :: d else q :: dict_insert d r

/-- `session_details_dict = {x.pid: x for x in x_session_config_objects}`
followed by `list(session_details_dict.values())`
(restore_session, xsession_manager.py lines 141-143). -/
def remove_duplicates_by_pid (rs : List WRecord) : List WRecord :=
  ((rs.foldl dict_insert []).map Prod.snd)

/-- Association-list lookup (first entry wins, as in Python dict with unique keys). -/
def alist_get (k : Nat) : List (Nat × WRecord) → Option WRecord
  | [] => none
  | q :: d => if q.1 = k then some q.2 else alist_get k d

/-- The last record of `rs` whose pid is `p`
(a specification-side helper used to describe the deduplication result). -/
def last_with_pid : List WRecord → Nat → Option WRecord
  | [], _ => none
  | r :: rs, p =>
    match last_with_pid rs p with
    | some v => some v
    | none => if r.pid = p then some r else none

lemma alist_get_dict_insert (d : List (Nat × WRecord)) (r : WRecord) (k : Nat) :
    alist_get k (dict_insert d r) = if k = r.pid then some r else alist_get k d := by
  induction d with
  | nil =>
    by_cases h : k = r.pid
    · simp [dict_insert, alist_get, h]
    · have h' : r.pid ≠ k := fun hc => h hc.symm
      simp [dict_insert, alist_get, h, h']
  | cons q d ih =>
    by_cases hq : q.1 = r.pid
    · by_cases hk : k = r.pid
      · simp [dict_insert, alist_get, hq, hk]
      · have hk' : r.pid ≠ k := fun hc => hk hc.symm
        simp [dict_insert, alist_get, hq, hk, hk']
    · by_cases hqk : q.1 = k
      · have hk : k ≠ r.pid := fun hc => hq (hqk.trans hc)
        simp [dict_insert, alist_get, hq, hqk, hk]
      · simp [dict_insert, alist_get, hq, hqk, ih]

lemma mem_keys_dict_insert (d : List (Nat × WRecord)) (r : WRecord) (k : Nat) :
    k ∈ (dict_insert d r).map Prod.fst ↔ k ∈ d.map Prod.fst ∨ k = r.pid := by
  induction d with
  | nil =>
    simp only [dict_insert, List.map_cons, List.map_nil, List.mem_singleton,
      List.not_mem_nil, false_or]
  | cons q d ih =>
    by_cases hq : q.1 = r.pid
    · simp only [dict_insert, if_pos hq, List.map_cons, List.mem_cons]
      constructor
      · rintro (h | h)
        · exact Or.inl (Or.inl h)
        · exact Or.inl (Or.inr h)
      · rintro ((h | h) | h)
        · exact Or.inl h
        · exact Or.inr h
        · exact Or.inl (hq ▸ h)
    · simp only [dict_insert, if_neg hq, List.map_cons, List.mem_cons, ih]
      tauto

lemma nodup_keys_dict_insert (d : List (Nat × WRecord)) (r : WRecord)
    (h : (d.map Prod.fst).Nodup) : ((dict_insert d r).map Prod.fst).Nodup := by
  induction d with
  | nil => simp [dict_insert]
  | cons q d ih =>
    simp only [List.map_cons, List.nodup_cons] at h
    by_cases hq : q.1 = r.pid
    · simp only [dict_insert, if_pos hq, List.map_cons, List.nodup_cons]
      exact ⟨h.1, h.2⟩
    · simp only [dict_insert, if_neg hq, List.map_cons, List.nodup_cons]
      refine ⟨fun hmem => ?_, ih h.2⟩
      rw [mem_keys_dict_insert] at hmem
      rcases hmem with hmem | hmem
      · exact h.1 hmem
      · exact hq hmem

lemma snd_mem_dict_insert (d : List (Nat × WRecord)) (r : WRecord) (v : WRecord)
    (h : v ∈ (dict_insert d r).map Prod.snd) : v ∈ d.map Prod.snd ∨ v = r := by
  induction d with
  | nil =>
    simp only [dict_insert, List.map_cons, List.map_nil, List.mem_singleton] at h
    exact Or.inr h
  | cons q d ih =>
    by_cases hq : q.1 = r.pid
    · simp only [dict_insert, if_pos hq, List.map_cons, List.mem_cons] at h
      rcases h with h | h
      · exact Or.inr h
      · exact Or.inl (by simp only [List.map_cons, List.mem_cons]; exact Or.inr h)
    · simp only [dict_insert, if_neg hq, List.map_cons, List.mem_cons] at h
      rcases h with h | h
      · exact Or.inl (by simp only [List.map_cons, List.mem_cons]; exact Or.inl h)
      · rcases ih h with h' | h'
        · exact Or.inl (by simp only [List.map_cons, List.mem_cons]; exact Or.inr h')
        · exact Or.inr h'

lemma pid_key_dict_insert (d : List (Nat × WRecord)) (r : WRecord)
    (h : ∀ q ∈ d, (q.2).pid = q.1) : ∀ q ∈ dict_insert d r, (q.2).pid = q.1 := by
  induction d with
  | nil => simp [dict_insert]
  | cons p d ih =>
    intro q hq
    by_cases hp : p.1 = r.pid
    · simp [dict_insert, hp] at hq
      rcases hq with hq | hq
      · simp [hq, hp]
      · exact h q (by simp [hq])
    · simp [dict_insert, hp] at hq
      rcases hq with hq | hq
      · exact h q (by simp [hq])
      · exact ih (fun q' hq' => h q' (by simp [hq'])) q hq

lemma alist_get_foldl (rs : List WRecord) (d : List (Nat × WRecord)) (k : Nat) :
    alist_get k (rs.foldl dict_insert d) =
      match last_with_pid rs k with
      | some v => some v
      | none => alist_get k d := by
  induction rs generalizing d with
  | nil => simp [last_with_pid]
  | cons r rs ih =>
    simp only [List.foldl_cons, ih, alist_get_dict_insert, last_with_pid]
    cases h : last_with_pid rs k with
    | some v => simp
    | none =>
      by_cases hk : k = r.pid
      · simp [hk]
      · have hk' : r.pid ≠ k := fun hc => hk hc.symm
        simp [hk, hk']

lemma mem_keys_foldl (rs : List WRecord) (d : List (Nat × WRecord)) (k : Nat) :
    k ∈ (rs.foldl dict_insert d).map Prod.fst ↔
      k ∈ d.map Prod.fst ∨ k ∈ rs.map (fun r => r.pid) := by
  induction rs generalizing d with
  | nil => simp
  | cons r rs ih =>
    simp only [List.foldl_cons, ih, mem_keys_dict_insert, List.map_cons, List.mem_cons]
    tauto

lemma nodup_keys_foldl (rs : List WRecord) (d : List (Nat × WRecord))
    (h : (d.map Prod.fst).Nodup) : ((rs.foldl dict_insert d).map Prod.fst).Nodup := by
  induction rs generalizing d with
  | nil => exact h
  | cons r rs ih => exact ih _ (nodup_keys_dict_insert d r h)

lemma pid_key_foldl (rs : List WRecord) (d : List (Nat × WRecord))
    (h : ∀ q ∈ d, (q.2).pid = q.1) : ∀ q ∈ rs.foldl dict_insert d, (q.2).pid = q.1 := by
  induction rs generalizing d with
  | nil => exact h
  | cons r rs ih => exact ih _ (pid_key_dict_insert d r h)

lemma snd_mem_foldl (rs : List WRecord) (d : List (Nat × WRecord)) (v : WRecord)
    (h : v ∈ (rs.foldl dict_insert d).map Prod.snd) : v ∈ d.map Prod.snd ∨ v ∈ rs := by
  induction rs generalizing d with
  | nil => exact Or.inl h
  | cons r rs ih =>
    rcases ih (dict_insert d r) h with h' | h'
    · rcases snd_mem_dict_insert d r v h' with h'' | h''
      · exact Or.inl h''
      · exact Or.inr (by simp [h''])
    · exact Or.inr (by simp [h'])

lemma alist_get_of_mem (d : List (Nat × WRecord)) (q : Nat × WRecord)
    (hnd : (d.map Prod.fst).Nodup) (hq : q ∈ d) : alist_get q.1 d = some q.2 := by
  induction d with
  | nil => simp at hq
  | cons p d ih =>
    simp only [List.map_cons, List.nodup_cons] at hnd
    rcases List.mem_cons.mp hq with h | h
    · simp [alist_get, h]
    · have hne : p.1 ≠ q.1 := by
        intro hc
        exact hnd.1 (hc ▸ List.mem_map_of_mem Prod.fst h)
      simp [alist_get, hne, ih hnd.2 h]

lemma remove_duplicates_map_pid (rs : List WRecord) :
    (remove_duplicates_by_pid rs).map (fun r => r.pid) =
      (rs.foldl dict_insert []).map Prod.fst := by
  unfold remove_duplicates_by_pid
  rw [List.map_map]
  exact List.map_congr_left (fun q hq => pid_key_foldl rs [] (by simp) q hq)

lemma nodup_all_eq_length_one (l : List Nat) (p : Nat) (hn : l.Nodup)
    (hall : ∀ x ∈ l, x = p) (hp : p ∈ l) : l.length = 1 := by
  cases l with
  | nil => simp at hp
  | cons a t =>
    cases t with
    | nil => rfl
    | cons b t2 =>
      exfalso
      have ha : a = p := hall a (by simp)
      have hb : b = p := hall b (by simp)
      simp only [List.nodup_cons, List.mem_cons] at hn
      exact hn.1 (Or.inl (ha.trans hb.symm))

/-- C3: Restore deduplication keeps exactly one record per distinct processId
(so N records sharing one processId yield exactly one relaunch), and the record
kept for each processId is the LAST-seen record with that processId (Python dict
comprehension overwrites on key collision), placed at the position of the pid's
first occurrence. This is the amended form of the claim; first-seen is refuted
separately. -/
theorem c3_restore_dedup_keeps_last_seen (rs : List WRecord) :
    ((remove_duplicates_by_pid rs).map (fun r => r.pid)).Nodup ∧
    (∀ r ∈ remove_duplicates_by_pid rs, r ∈ rs) ∧
    (∀ p, p ∈ (remove_duplicates_by_pid rs).map (fun r => r.pid) ↔
      p ∈ rs.map (fun r => r.pid)) ∧
    (∀ r ∈ remove_duplicates_by_pid rs, last_with_pid rs r.pid = some r) ∧
    (∀ p, rs ≠ [] → (∀ r ∈ rs, r.pid = p) → (remove_duplicates_by_pid rs).length = 1) := by
  refine ⟨?_, ?_, ?_, ?_, ?_⟩
  · rw [remove_duplicates_map_pid]
    exact nodup_keys_foldl rs [] (by simp)
  · intro r hr
    rcases snd_mem_foldl rs [] r hr with h | h
    · simp at h
    · exact h
  · intro p
    rw [remove_duplicates_map_pid, mem_keys_foldl]
    simp
  · intro r hr
    unfold remove_duplicates_by_pid at hr
    rcases List.mem_map.mp hr with ⟨q, hq, hqr⟩
    have hkey : q.1 = r.pid := by
      rw [← hqr]
      exact (pid_key_foldl rs [] (by simp) q hq).symm
    have hget : alist_get q.1 (rs.foldl dict_insert []) = some q.2 :=
      alist_get_of_mem _ q (nodup_keys_foldl rs [] (by simp)) hq
    rw [hkey, hqr] at hget
    rw [alist_get_foldl] at hget
    cases h : last_with_pid rs r.pid with
    | some v => rw [h] at hget; simpa using hget
    | none => rw [h] at hget; simp [alist_get] at hget
  · intro p hne hall
    have hlen : ((remove_duplicates_by_pid rs).map (fun r => r.pid)).length = 1 := by
      apply nodup_all_eq_length_one _ p
      · rw [remove_duplicates_map_pid]
        exact nodup_keys_foldl rs [] (by simp)
      · intro x hx
        rcases List.mem_map.mp hx with ⟨r, hr, hrx⟩
        have : r ∈ rs := by
          rcases snd_mem_foldl rs [] r hr with h | h
          · simp at h
          · exact h
        rw [← hrx]
        exact hall r this
      · rw [remove_duplicates_map_pid, mem_keys_foldl]
        right
        cases rs with
        | nil => exact absurd rfl hne
        | cons a t => simp [hall a (by simp)]
    simpa using hlen

/-- C3 witness: a concrete two-record list sharing pid 7 deduplicates to a
single record. -/
theorem c3_restore_dedup_keeps_last_seen_witness :
    (remove_duplicates_by_pid
        [⟨7, 1, "w1", 0, "app", ["c"]⟩, ⟨7, 2, "w2", 1, "app", ["c"]⟩]).length = 1 :=
  (c3_restore_dedup_keeps_last_seen _).2.2.2.2 7 (by decide) (by decide)

/-- C3 counterexample: with two records sharing pid 7, the record kept is the
second (last-seen) one, not the first-seen one claimed by the spec. -/
theorem c3_first_seen_counterexample :
    remove_duplicates_by_pid
        [⟨7, 1, "w1", 0, "app", ["c"]⟩, ⟨7, 2, "w2", 1, "app", ["c"]⟩] =
      [⟨7, 2, "w2", 1, "app", ["c"]⟩] ∧
    (⟨7, 2, "w2", 1, "app", ["c"]⟩ : WRecord) ≠ ⟨7, 1, "w1", 0, "app", ["c"]⟩ := by
  constructor
  · rfl
  · decide

/-! Restore pipeline: filters, effects, `restore_session`, `move_window` -/

/-- Stable insertion keeping records ordered by `desktop_number`
(Python's stable `list.sort(key=attrgetter('desktop_number'))`). -/
def insert_by_desktop (w : WRecord) : List WRecord → List WRecord
  | [] => [w]
  | v :: vs =>
    if w.desktop_number ≤ v.desktop_number then w :: v :: vs
    else v :: insert_by_desktop w vs

/-- Stable sort by `desktop_number` (insertion sort formulation). -/
def sort_by_desktop_number (rs : List WRecord) : List WRecord :=
  rs.foldr insert_by_desktop []

lemma mem_insert_by_desktop (x w : WRecord) (l : List WRecord) :
    x ∈ insert_by_desktop w l ↔ x = w ∨ x ∈ l := by
  induction l with
  | nil => simp [insert_by_desktop]
  | cons v vs ih =>
    by_cases h : w.desktop_number ≤ v.desktop_number
    · simp [insert_by_desktop, h]
    · simp [insert_by_desktop, h, ih]
      tauto

lemma mem_sort_by_desktop_number (x : WRecord) (rs : List WRecord) :
    x ∈ sort_by_desktop_number rs ↔ x ∈ rs := by
  induction rs with
  | nil => simp [sort_by_desktop_number]
  | cons r rs ih =>
    simp only [sort_by_desktop_number, List.foldr_cons] at *
    rw [mem_insert_by_desktop, ih, List.mem_cons]

/-- The session-filter pipeline: each non-`None` filter consumes the previous
output; a `None` entry is skipped (restore_session lines 144-148,
move_window lines 247-251). -/
def apply_session_filters (fs : List (Option (List WRecord → List WRecord)))
    (rs : List WRecord) : List WRecord :=
  fs.foldl (fun acc f => match f with | none => acc | some g => g acc) rs

/-- Observable side effects of the restore / move paths. -/
inductive Effect where
  | warn_empty_cmd (app : String)
  | launch (cmd : List String)
  | move_task (r : WRecord) (pid : Nat)
  | sleep_for (t : Nat)
  | ensure_workspaces (n : Nat)
  | move_window_call (r : WRecord)
deriving DecidableEq, Repr

/-- One iteration of the `restore_sessions` loop (lines 157-171): an empty
command line is reported and skipped; otherwise the process is launched, an
asynchronous move task is scheduled with the launched pid, and the loop sleeps
for `restoring_interval`. `spawn` models `subprocess_utils.run_cmd`. -/
def restore_one (spawn : List String → Nat) (restoring_interval : Nat)
    (r : WRecord) : List Effect :=
  if r.cmd.length = 0 then [Effect.warn_empty_cmd r.app_name]
  else [Effect.launch r.cmd, Effect.move_task r (spawn r.cmd),
        Effect.sleep_for restoring_interval]

/-- Effects of the full `restore_sessions` loop. -/
def restore_sessions_effects (spawn : List String → Nat) (restoring_interval : Nat)
    (rs : List WRecord) : List Effect :=
  rs.flatMap (restore_one spawn restoring_interval)

/-- `_get_max_desktop_number` (lines 259-262): Python `max([])` raises
`ValueError: max() arg is an empty sequence`; otherwise the maximum desktop
number plus one. -/
def get_max_desktop_number (rs : List WRecord) : Except String Nat :=
  match rs.map (fun r => r.desktop_number) with
  | [] => Except.error "max() arg is an empty sequence"
  | d :: ds => Except.ok (ds.foldl Nat.max d + 1)

/-- The child-side of `restore_session` (lines 138-176): deduplicate by pid,
apply filters, return immediately when empty, otherwise compute the workspace
requirement and run the launch loop inside the capacity scope. -/
def restore_session_run (spawn : List String → Nat) (restoring_interval : Nat)
    (fs : List (Option (List WRecord → List WRecord)))
    (records : List WRecord) : Except String (List Effect) :=
  let rs := apply_session_filters fs (remove_duplicates_by_pid records)
  if rs.length = 0 then Except.ok []
  else
    match get_max_desktop_number rs with
    | Except.error e => Except.error e
    | Except.ok m =>
      Except.ok (Effect.ensure_workspaces m ::
        restore_sessions_effects spawn restoring_interval rs)

/-- `move_window` (lines 236-257): sort by desktop number, apply filters, then
unconditionally compute `_get_max_desktop_number` (no empty-set guard) and move
each remaining record inside the capacity scope. -/
def move_window_run (fs : List (Option (List WRecord → List WRecord)))
    (records : List WRecord) : Except String (List Effect) :=
  let rs := apply_session_filters fs (sort_by_desktop_number records)
  match get_max_desktop_number rs with
  | Except.error e => Except.error e
  | Except.ok m =>
    Except.ok (Effect.ensure_workspaces m :: rs.map Effect.move_window_call)

/-- Number of process launches among a list of effects. -/
def launch_count (es : List Effect) : Nat :=
  (es.filter (fun e => match e with | Effect.launch _ => true | _ => false)).length

lemma launch_count_append (a b : List Effect) :
    launch_count (a ++ b) = launch_count a + launch_count b := by
  simp [launch_count, List.filter_append]

/-- C7: During restore, a record with an empty command line is skipped with a
warning and produces no launch and no move task, while the remaining records
are restored: the number of launches equals the number of records with a
non-empty command line, and the concrete 3-record session with one empty
command line launches exactly 2 processes. -/
theorem c7_empty_commandline_skipped (spawn : List String → Nat)
    (restoring_interval : Nat) :
    (∀ rs : List WRecord,
      launch_count (restore_sessions_effects spawn restoring_interval rs) =
        (rs.filter (fun r => r.cmd.length != 0)).length) ∧
    (∀ r : WRecord, r.cmd = [] →
      restore_one spawn restoring_interval r = [Effect.warn_empty_cmd r.app_name]) ∧
    launch_count (restore_sessions_effects spawn restoring_interval
        [⟨1, 1, "t1", 0, "a1", ["c1"]⟩, ⟨2, 2, "t2", 0, "a2", []⟩,
         ⟨3, 3, "t3", 0, "a3", ["c3"]⟩]) = 2 := by
  have hone : ∀ r : WRecord,
      launch_count (restore_one spawn restoring_interval r) =
        if r.cmd.length = 0 then 0 else 1 := by
    intro r
    by_cases h : r.cmd.length = 0 <;> simp [restore_one, launch_count, h]
  refine ⟨?_, ?_, ?_⟩
  · intro rs
    induction rs with
    | nil => rfl
    | cons r rs ih =>
      rw [restore_sessions_effects, List.flatMap_cons, launch_count_append]
      rw [restore_sessions_effects] at ih
      rw [ih, hone r, List.filter_cons]
      by_cases h : r.cmd.length = 0
      · simp [h]
      · simp [h]
        omega
  · intro r h
    simp [restore_one, h]
  · rw [show ([⟨1, 1, "t1", 0, "a1", ["c1"]⟩, ⟨2, 2, "t2", 0, "a2", []⟩,
         ⟨3, 3, "t3", 0, "a3", ["c3"]⟩] : List WRecord) =
        [⟨1, 1, "t1", 0, "a1", ["c1"]⟩] ++ [⟨2, 2, "t2", 0, "a2", []⟩] ++
          [⟨3, 3, "t3", 0, "a3", ["c3"]⟩] from rfl]
    simp only [restore_sessions_effects, List.flatMap_append, launch_count_append]
    simp [restore_one, launch_count]

/-- C7 witness: the 3-record scenario evaluated at a concrete spawn function. -/
theorem c7_empty_commandline_skipped_witness :
    launch_count (restore_sessions_effects (fun _ => 9) 2
        [⟨1, 1, "t1", 0, "a1", ["c1"]⟩, ⟨2, 2, "t2", 0, "a2", []⟩,
         ⟨3, 3, "t3", 0, "a3", ["c3"]⟩]) = 2 :=
  (c7_empty_commandline_skipped (fun _ => 9) 2).2.2

/-- C8: If the record set is empty after restore-time deduplication and
filtering, `restore_session` completes immediately with no side effects: no
launch, no move task, no workspace-capacity request. -/
theorem c8_empty_set_no_side_effects (spawn : List String → Nat)
    (restoring_interval : Nat) (fs : List (Option (List WRecord → List WRecord)))
    (records : List WRecord)
    (h : apply_session_filters fs (remove_duplicates_by_pid records) = []) :
    restore_session_run spawn restoring_interval fs records = Except.ok [] := by
  unfold restore_session_run
  rw [h]
  rfl

/-- C8 witness: the empty session restores to no effects. -/
theorem c8_empty_set_no_side_effects_witness :
    restore_session_run (fun _ => 0) 2 [] [] = Except.ok [] :=
  c8_empty_set_no_side_effects (fun _ => 0) 2 [] [] rfl

/-- C10: When the record list is empty after `move_window`'s sort-and-filter
pipeline, `move_window` fails with the empty-`max()` error instead of
completing as a no-op, whereas `restore_session` (which has the empty-set
guard) completes successfully with no effects on an analogously empty input. -/
theorem c10_move_window_empty_raises (fs : List (Option (List WRecord → List WRecord)))
    (records : List WRecord)
    (h : apply_session_filters fs (sort_by_desktop_number records) = []) :
    move_window_run fs records = Except.error "max() arg is an empty sequence" ∧
    (∀ (spawn : List String → Nat) (restoring_interval : Nat)
        (records' : List WRecord),
      apply_session_filters fs (remove_duplicates_by_pid records') = [] →
      restore_session_run spawn restoring_interval fs records' = Except.ok []) := by
  constructor
  · unfold move_window_run
    rw [h]
    rfl
  · intro spawn ri records' h'
    unfold restore_session_run
    rw [h']
    rfl

/-- C10 witness: on the empty session, `move_window` raises while
`restore_session` is a successful no-op. -/
theorem c10_move_window_empty_raises_witness :
    move_window_run [] [] = Except.error "max() arg is an empty sequence" ∧
    restore_session_run (fun _ => 0) 2 [] [] = Except.ok [] :=
  ⟨(c10_move_window_empty_raises [] [] rfl).1,
   (c10_move_window_empty_raises [] [] rfl).2 (fun _ => 0) 2 [] rfl⟩

/-! The `_move_window` attempt (lines 276-334) -/

/-- External collaborators visible to one `_move_window` attempt. -/
structure MoveEnv where
  children : Nat → List Nat
  process_list : List (Nat × List String)
  running_windows : List WRecord

/-- Candidate pids (lines 280-284): with a truthy supplied pid, its current
children plus the pid itself; otherwise none (Python `if pid:` treats `None`
and `0` as unsupplied). -/
def candidate_pids (env : MoveEnv) (pid : Option Nat) : List Nat :=
  match pid with
  | some p => if p ≠ 0 then env.children p ++ [p] else []
  | none => []

/-- Fallback pid scan (lines 292-298): the first running process whose
non-empty command line equals the record's command line. -/
def fallback_pids (env : MoveEnv) (cmd : List String) : List Nat :=
  match env.process_list.find? (fun q => q.2.length != 0 && q.2 == cmd) with
  | some q => [q.1]
  | none => []

/-- State of the window-scan loop (lines 300-314). -/
structure ScanResult where
  moving_windows : List WRecord
  no_need_to_move : Bool
deriving DecidableEq, Repr

/-- One iteration of the scan loop: a candidate-pid window matching on title
with a differing desktop is collected (clearing `no_need_to_move`); a window
with a NON-candidate pid clears `no_need_to_move`; a candidate-pid window not
matching on title leaves the state untouched. -/
def scan_step (r : WRecord) (pids : List Nat) (acc : ScanResult) (w : WRecord) :
    ScanResult :=
  if w.pid ∈ pids then
    if w.window_title = r.window_title ∧ w.desktop_number ≠ r.desktop_number then
      { moving_windows := acc.moving_windows ++ [w], no_need_to_move := false }
    else acc
  else { acc with no_need_to_move := false }

/-- The scan loop over the (sorted) snapshot of running windows. -/
def scan_windows (r : WRecord) (pids : List Nat) (ws : List WRecord) : ScanResult :=
  ws.foldl (scan_step r pids) ⟨[], true⟩

/-- Boolean form of "this window needs a move" (the collect condition). -/
def needs_move_b (r : WRecord) (pids : List Nat) (w : WRecord) : Bool :=
  decide (w.pid ∈ pids) && decide (w.window_title = r.window_title) &&
    decide (w.desktop_number ≠ r.desktop_number)

/-- Boolean form of "this window leaves `no_need_to_move` untouched". -/
def settled_b (r : WRecord) (pids : List Nat) (w : WRecord) : Bool :=
  decide (w.pid ∈ pids) &&
    !(decide (w.window_title = r.window_title) &&
      decide (w.desktop_number ≠ r.desktop_number))

lemma scan_foldl_moving (r : WRecord) (pids : List Nat) (ws : List WRecord)
    (acc : ScanResult) :
    (ws.foldl (scan_step r pids) acc).moving_windows =
      acc.moving_windows ++ ws.filter (needs_move_b r pids) := by
  induction ws generalizing acc with
  | nil => simp
  | cons w ws ih =>
    rw [List.foldl_cons, ih, List.filter_cons]
    by_cases hp : w.pid ∈ pids
    · by_cases hm : w.window_title = r.window_title ∧ w.desktop_number ≠ r.desktop_number
      · have hb : needs_move_b r pids w = true := by
          simp [needs_move_b, hp, hm.1, hm.2]
        simp [scan_step, hp, hm, hb]
      · have hb : needs_move_b r pids w = false := by
          simp only [needs_move_b, Bool.and_eq_false_iff]
          rcases not_and_or.mp hm with h | h
          · exact Or.inl (Or.inr (by simpa using h))
          · exact Or.inr (by simpa using h)
        simp [scan_step, hp, hm, hb]
    · have hb : needs_move_b r pids w = false := by
        simp [needs_move_b, hp]
      simp [scan_step, hp, hb]

lemma scan_foldl_flag (r : WRecord) (pids : List Nat) (ws : List WRecord)
    (acc : ScanResult) :
    (ws.foldl (scan_step r pids) acc).no_need_to_move =
      (acc.no_need_to_move && ws.all (settled_b r pids)) := by
  induction ws generalizing acc with
  | nil => simp
  | cons w ws ih =>
    rw [List.foldl_cons, ih, List.all_cons]
    by_cases hp : w.pid ∈ pids
    · by_cases hm : w.window_title = r.window_title ∧ w.desktop_number ≠ r.desktop_number
      · have hb : settled_b r pids w = false := by
          simp [settled_b, hp, hm.1, hm.2]
        simp [scan_step, hp, hm, hb]
      · have hb : settled_b r pids w = true := by
          simp only [settled_b, Bool.and_eq_true, Bool.not_eq_true', Bool.and_eq_false_iff]
          refine ⟨by simpa using hp, ?_⟩
          rcases not_and_or.mp hm with h | h
          · exact Or.inl (by simp only [decide_eq_false_iff_not]; exact h)
          · exact Or.inr (by simp only [decide_eq_false_iff_not]; exact h)
        simp [scan_step, hp, hm, hb]
    · have hb : settled_b r pids w = false := by
        simp [settled_b, hp]
      simp [scan_step, hp, hb]

lemma mem_moving_windows (r : WRecord) (pids : List Nat) (ws : List WRecord)
    (w : WRecord) :
    w ∈ (scan_windows r pids ws).moving_windows ↔
      w ∈ ws ∧ w.pid ∈ pids ∧ w.window_title = r.window_title ∧
        w.desktop_number ≠ r.desktop_number := by
  rw [scan_windows, scan_foldl_moving]
  simp [List.mem_filter, needs_move_b, and_assoc]

lemma no_need_to_move_true_iff (r : WRecord) (pids : List Nat) (ws : List WRecord) :
    (scan_windows r pids ws).no_need_to_move = true ↔
      ∀ w ∈ ws, w.pid ∈ pids ∧
        ¬(w.window_title = r.window_title ∧ w.desktop_number ≠ r.desktop_number) := by
  rw [scan_windows, scan_foldl_flag]
  simp only [Bool.true_and, List.all_eq_true, settled_b]
  constructor
  · intro h w hw
    have := h w hw
    simp only [Bool.and_eq_true, Bool.not_eq_true', Bool.and_eq_false_iff,
      decide_eq_true_eq, decide_eq_false_iff_not] at this
    refine ⟨this.1, ?_⟩
    rintro ⟨h1, h2⟩
    rcases this.2 with h' | h'
    · exact h' h1
    · exact absurd h2 (by simpa using h')
  · intro h w hw
    rcases h w hw with ⟨h1, h2⟩
    simp only [Bool.and_eq_true, decide_eq_true_eq, Bool.not_eq_true',
      Bool.and_eq_false_iff]
    refine ⟨h1, ?_⟩
    by_cases ht : w.window_title = r.window_title
    · right
      simp only [decide_eq_false_iff_not, not_not]
      by_contra hd
      exact h2 ⟨ht, by simpa using hd⟩
    · left
      simpa using ht

lemma moving_ne_nil_flag (r : WRecord) (pids : List Nat) (ws : List WRecord)
    (h : (scan_windows r pids ws).moving_windows ≠ []) :
    (scan_windows r pids ws).no_need_to_move = false := by
  rcases List.exists_mem_of_ne_nil _ h with ⟨w, hw⟩
  rw [mem_moving_windows] at hw
  rcases hw with ⟨hmem, hp, ht, hd⟩
  by_contra hflag
  have htrue : (scan_windows r pids ws).no_need_to_move = true := by
    cases hv : (scan_windows r pids ws).no_need_to_move
    · exact absurd hv hflag
    · rfl
  rcases (no_need_to_move_true_iff r pids ws).mp htrue w hmem with ⟨_, hnot⟩
  exact hnot ⟨ht, hd⟩

/-- The idempotency-cache move loop (lines 321-329): the cache is consulted
before each move; on a miss the move command is issued and the handle is
recorded in the cache immediately afterwards. State is
(moved-window-id cache, issued move commands `(window_id, desktop)`). -/
def process_moving_windows (desktop : Nat) (st : List Nat × List (Nat × Nat))
    (ws : List WRecord) : List Nat × List (Nat × Nat) :=
  ws.foldl (fun st w =>
    if w.window_id ∈ st.1 then st
    else (st.1 ++ [w.window_id], st.2 ++ [(w.window_id, desktop)])) st

/-- Result of one `_move_window` body run (exceptions modelled separately). -/
inductive MoveResult where
  | early_return
  | need_retry_raised
  | no_move_needed
  | moved (cache : List Nat) (cmds : List (Nat × Nat))
deriving DecidableEq, Repr

/-- The pid list actually used by the scan: candidate pids when any were
collected, else the command-line fallback (lines 287-298). -/
def move_pids (env : MoveEnv) (r : WRecord) (pid : Option Nat) : List Nat :=
  if candidate_pids env pid = [] then fallback_pids env r.cmd
  else candidate_pids env pid

/-- The scan of the freshly-snapshotted, desktop-sorted window list
(lines 300-314). -/
def move_scan (env : MoveEnv) (r : WRecord) (pid : Option Nat) : ScanResult :=
  scan_windows r (move_pids env r pid) (sort_by_desktop_number env.running_windows)

/-- `_move_window` (lines 276-334), exception-free runs: compute candidate
pids (falling back to a command-line scan, with an early return on an empty
command line), scan the sorted window snapshot, raise the retry signal when
retrying is enabled and nothing needs a move, return when nothing at all needs
attention, and otherwise run the cached move loop. -/
def move_window_body (env : MoveEnv) (r : WRecord) (pid : Option Nat)
    (need_retry : Bool) (cache : List Nat) : MoveResult :=
  if candidate_pids env pid = [] ∧ r.cmd.length = 0 then MoveResult.early_return
  else if need_retry ∧ (move_scan env r pid).moving_windows = [] then
    MoveResult.need_retry_raised
  else if (move_scan env r pid).no_need_to_move then MoveResult.no_move_needed
  else
    MoveResult.moved
      (process_moving_windows r.desktop_number (cache, [])
        (move_scan env r pid).moving_windows).1
      (process_moving_windows r.desktop_number (cache, [])
        (move_scan env r pid).moving_windows).2

/-- Number of issued move commands targeting window handle `i`. -/
def cmd_count (cmds : List (Nat × Nat)) (i : Nat) : Nat :=
  (cmds.filter (fun q => q.1 == i)).length

lemma cmd_count_append (m : List (Nat × Nat)) (q : Nat × Nat) (i : Nat) :
    cmd_count (m ++ [q]) i = cmd_count m i + if q.1 = i then 1 else 0 := by
  by_cases h : q.1 = i <;> simp [cmd_count, List.filter_append, h]

lemma process_cons (desktop : Nat) (st : List Nat × List (Nat × Nat))
    (w : WRecord) (ws : List WRecord) :
    process_moving_windows desktop st (w :: ws) =
      process_moving_windows desktop
        (if w.window_id ∈ st.1 then st
         else (st.1 ++ [w.window_id], st.2 ++ [(w.window_id, desktop)])) ws := rfl

lemma process_issued_iff (desktop : Nat) (c₀ : List Nat) (m₀ : List (Nat × Nat))
    (ws : List WRecord) (i : Nat) :
    (∃ d, (i, d) ∈ (process_moving_windows desktop (c₀, m₀) ws).2) ↔
      (∃ d, (i, d) ∈ m₀) ∨ (i ∈ ws.map (fun w => w.window_id) ∧ i ∉ c₀) := by
  induction ws generalizing c₀ m₀ with
  | nil => simp [process_moving_windows]
  | cons w ws ih =>
    rw [process_cons]
    by_cases hmem : w.window_id ∈ c₀
    · rw [if_pos hmem, ih]
      constructor
      · rintro (h | ⟨h1, h2⟩)
        · exact Or.inl h
        · exact Or.inr ⟨by simp [h1], h2⟩
      · rintro (h | ⟨h1, h2⟩)
        · exact Or.inl h
        · simp only [List.map_cons, List.mem_cons] at h1
          rcases h1 with h1 | h1
          · exact absurd (h1 ▸ hmem) h2
          · exact Or.inr ⟨h1, h2⟩
    · rw [if_neg hmem, ih]
      by_cases hi : i = w.window_id
      · subst hi
        constructor
        · intro _
          exact Or.inr ⟨by simp, hmem⟩
        · intro _
          exact Or.inl ⟨desktop, by simp⟩
      · constructor
        · rintro (⟨d, hd⟩ | ⟨h1, h2⟩)
          · simp only [List.mem_append, List.mem_singleton, Prod.mk.injEq] at hd
            rcases hd with hd | hd
            · exact Or.inl ⟨d, hd⟩
            · exact absurd hd.1 hi
          · refine Or.inr ⟨by simp [h1], fun hc => h2 (by simp [hc])⟩
        · rintro (⟨d, hd⟩ | ⟨h1, h2⟩)
          · exact Or.inl ⟨d, by simp [hd]⟩
          · simp only [List.map_cons, List.mem_cons] at h1
            rcases h1 with h1 | h1
            · exact absurd h1 hi
            · exact Or.inr ⟨h1, by simp [hi, h2]⟩

lemma process_cmds_target (desktop : Nat) (st : List Nat × List (Nat × Nat))
    (ws : List WRecord) (i d : Nat)
    (h : (i, d) ∈ (process_moving_windows desktop st ws).2) :
    (i, d) ∈ st.2 ∨ d = desktop := by
  induction ws generalizing st with
  | nil => exact Or.inl h
  | cons w ws ih =>
    rw [process_cons] at h
    by_cases hmem : w.window_id ∈ st.1
    · rw [if_pos hmem] at h
      exact ih _ h
    · rw [if_neg hmem] at h
      rcases ih _ h with h' | h'
      · simp only [List.mem_append, List.mem_singleton, Prod.mk.injEq] at h'
        rcases h' with h' | h'
        · exact Or.inl h'
        · exact Or.inr h'.2
      · exact Or.inr h'

lemma process_inv (desktop : Nat) (st : List Nat × List (Nat × Nat))
    (ws : List WRecord) (i : Nat)
    (h1 : cmd_count st.2 i ≤ 1) (h2 : 1 ≤ cmd_count st.2 i → i ∈ st.1) :
    cmd_count (process_moving_windows desktop st ws).2 i ≤ 1 ∧
      (1 ≤ cmd_count (process_moving_windows desktop st ws).2 i →
        i ∈ (process_moving_windows desktop st ws).1) := by
  induction ws generalizing st with
  | nil => exact ⟨h1, h2⟩
  | cons w ws ih =>
    rw [process_cons]
    by_cases hmem : w.window_id ∈ st.1
    · rw [if_pos hmem]
      exact ih st h1 h2
    · rw [if_neg hmem]
      by_cases hi : w.window_id = i
      · have hz : cmd_count st.2 i = 0 := by
          by_contra hc
          exact hmem (hi ▸ h2 (by omega))
        apply ih
        · rw [cmd_count_append, hz, if_pos hi]
        · intro _
          simp [hi]
      · apply ih
        · rw [cmd_count_append, if_neg hi]
          omega
        · intro hcnt
          rw [cmd_count_append, if_neg hi] at hcnt
          simp [h2 (by omega)]

/-- A whole restore run's sequence of cached move loops: each element of
`batches` is one `_move_window` attempt's (target desktop, windows needing a
move); the moved-window-id cache is shared across all of them and starts
empty (`XSessionManager.__init__`, line 37). -/
def run_restore_moves (batches : List (Nat × List WRecord)) :
    List Nat × List (Nat × Nat) :=
  batches.foldl (fun st b => process_moving_windows b.1 st b.2) ([], [])

lemma run_restore_moves_inv (batches : List (Nat × List WRecord))
    (st : List Nat × List (Nat × Nat)) (i : Nat)
    (h1 : cmd_count st.2 i ≤ 1) (h2 : 1 ≤ cmd_count st.2 i → i ∈ st.1) :
    cmd_count (batches.foldl (fun st b => process_moving_windows b.1 st b.2) st).2 i ≤ 1 ∧
      (1 ≤ cmd_count (batches.foldl (fun st b => process_moving_windows b.1 st b.2) st).2 i →
        i ∈ (batches.foldl (fun st b => process_moving_windows b.1 st b.2) st).1) := by
  induction batches generalizing st with
  | nil => exact ⟨h1, h2⟩
  | cons b bs ih =>
    rw [List.foldl_cons]
    have h := process_inv b.1 st b.2 i h1 h2
    exact ih _ h.1 h.2

/-- C5: Across any sequence of move attempts within one restore run (shared
idempotency cache starting empty), at most one external move command is issued
per window handle, and any handle with an issued command is recorded in the
cache. -/
theorem c5_at_most_one_move_per_handle (batches : List (Nat × List WRecord))
    (i : Nat) :
    cmd_count (run_restore_moves batches).2 i ≤ 1 ∧
      (1 ≤ cmd_count (run_restore_moves batches).2 i →
        i ∈ (run_restore_moves batches).1) := by
  unfold run_restore_moves
  exact run_restore_moves_inv batches ([], []) i (by simp [cmd_count]) (by simp [cmd_count])

/-- C5 witness: two duplicate move attempts on the same window handle issue at
most one command. -/
theorem c5_at_most_one_move_per_handle_witness :
    cmd_count (run_restore_moves
        [(1, [⟨4, 10, "t", 0, "a", []⟩]), (1, [⟨4, 10, "t", 0, "a", []⟩])]).2 10 ≤ 1 :=
  (c5_at_most_one_move_per_handle
    [(1, [⟨4, 10, "t", 0, "a", []⟩]), (1, [⟨4, 10, "t", 0, "a", []⟩])] 10).1

/-- C1: With a supplied (truthy) launched pid `p`, the pid list used by the
scan is exactly the candidate set "children of `p` plus `p` itself"; the
windows marked as needing a move are exactly the snapshot windows with a
candidate pid, matching title, and differing desktop; and when any were
marked, the body issues a move command exactly for those marked handles not
already in the cache, each targeting the record's desktop. -/
theorem c1_candidate_pids_and_marking (env : MoveEnv) (r : WRecord) (p : Nat)
    (need_retry : Bool) (cache : List Nat) (hp : p ≠ 0) :
    move_pids env r (some p) = candidate_pids env (some p) ∧
    (∀ q, q ∈ candidate_pids env (some p) ↔ q ∈ env.children p ∨ q = p) ∧
    (∀ w, w ∈ (move_scan env r (some p)).moving_windows ↔
      w ∈ env.running_windows ∧ w.pid ∈ candidate_pids env (some p) ∧
        w.window_title = r.window_title ∧ w.desktop_number ≠ r.desktop_number) ∧
    ((move_scan env r (some p)).moving_windows ≠ [] →
      move_window_body env r (some p) need_retry cache =
        MoveResult.moved
          (process_moving_windows r.desktop_number (cache, [])
            (move_scan env r (some p)).moving_windows).1
          (process_moving_windows r.desktop_number (cache, [])
            (move_scan env r (some p)).moving_windows).2) ∧
    (∀ i, (∃ d, (i, d) ∈ (process_moving_windows r.desktop_number (cache, [])
          (move_scan env r (some p)).moving_windows).2) ↔
        (i ∈ (move_scan env r (some p)).moving_windows.map (fun w => w.window_id) ∧
          i ∉ cache)) ∧
    (∀ i d, (i, d) ∈ (process_moving_windows r.desktop_number (cache, [])
          (move_scan env r (some p)).moving_windows).2 → d = r.desktop_number) := by
  have hne : candidate_pids env (some p) ≠ [] := by
    simp [candidate_pids, hp]
  have hpids : move_pids env r (some p) = candidate_pids env (some p) := by
    rw [move_pids, if_neg hne]
  refine ⟨hpids, ?_, ?_, ?_, ?_, ?_⟩
  · intro q
    simp [candidate_pids, hp, or_comm]
  · intro w
    rw [move_scan, hpids, mem_moving_windows, mem_sort_by_desktop_number]
  · intro hmov
    have hflag : (move_scan env r (some p)).no_need_to_move = false := by
      rw [move_scan] at hmov ⊢
      exact moving_ne_nil_flag _ _ _ hmov
    rw [move_window_body]
    rw [if_neg (fun hc => hne hc.1), if_neg (fun hc => hmov hc.2), if_neg (by simp [hflag])]
  · intro i
    rw [process_issued_iff]
    simp
  · intro i d h
    rcases process_cmds_target _ _ _ _ _ h with h' | h'
    · simp at h'
    · exact h'

/-- C1 witness: the candidate-set characterization evaluated at pid 5 with one
child pid 6. -/
theorem c1_candidate_pids_and_marking_witness :
    6 ∈ candidate_pids ⟨fun _ => [6], [], [⟨6, 100, "T", 0, "a", ["c"]⟩]⟩ (some 5) ↔
      6 ∈ (fun _ => [6] : Nat → List Nat) 5 ∨ 6 = 5 :=
  (c1_candidate_pids_and_marking ⟨fun _ => [6], [], [⟨6, 100, "T", 0, "a", ["c"]⟩]⟩
    ⟨1, 1, "T", 2, "a", ["c"]⟩ 5 true [] (by decide)).2.1 6

/-- C2 (amended): a snapshot window with a candidate pid whose title does not
match is tolerated (never collected for a move) and leaves `no_need_to_move`
unchanged; the flag is cleared exactly when some scanned window either belongs
to a NON-candidate pid or is an actual mover (candidate pid, matching title,
differing desktop). -/
theorem c2_title_mismatch_leaves_flag (r : WRecord) (pids : List Nat)
    (ws : List WRecord) :
    (∀ w ∈ ws, w.pid ∈ pids → w.window_title ≠ r.window_title →
      w ∉ (scan_windows r pids ws).moving_windows) ∧
    ((scan_windows r pids ws).no_need_to_move = false ↔
      ∃ w ∈ ws, w.pid ∉ pids ∨
        (w.pid ∈ pids ∧ w.window_title = r.window_title ∧
          w.desktop_number ≠ r.desktop_number)) := by
  constructor
  · intro w _ _ ht hmem
    exact ht ((mem_moving_windows r pids ws w).mp hmem).2.2.1
  · have hiff := no_need_to_move_true_iff r pids ws
    constructor
    · intro hfalse
      by_contra hnone
      have hall : ∀ w ∈ ws, w.pid ∈ pids ∧
          ¬(w.window_title = r.window_title ∧ w.desktop_number ≠ r.desktop_number) := by
        intro w hw
        by_cases h1 : w.pid ∈ pids
        · exact ⟨h1, fun hc => hnone ⟨w, hw, Or.inr ⟨h1, hc.1, hc.2⟩⟩⟩
        · exact absurd ⟨w, hw, Or.inl h1⟩ hnone
      have htrue := hiff.mpr hall
      rw [htrue] at hfalse
      cases hfalse
    · rintro ⟨w, hw, hcase⟩
      cases hv : (scan_windows r pids ws).no_need_to_move
      · rfl
      · exfalso
        rcases hiff.mp hv w hw with ⟨h1, h2⟩
        rcases hcase with hc | hc
        · exact hc h1
        · exact h2 ⟨hc.2.1, hc.2.2⟩

/-- C2 witness: a concrete title-mismatching candidate window is not collected. -/
theorem c2_title_mismatch_leaves_flag_witness :
    (⟨5, 10, "B", 0, "app", ["c"]⟩ : WRecord) ∉
      (scan_windows ⟨1, 1, "A", 1, "app", ["c"]⟩ [5]
        [⟨5, 10, "B", 0, "app", ["c"]⟩]).moving_windows :=
  (c2_title_mismatch_leaves_flag ⟨1, 1, "A", 1, "app", ["c"]⟩ [5]
      [⟨5, 10, "B", 0, "app", ["c"]⟩]).1
    ⟨5, 10, "B", 0, "app", ["c"]⟩ (by decide) (by decide) (by decide)

/-- C2 counterexample: a snapshot consisting of exactly one candidate-pid
window whose title does not match leaves `no_need_to_move` TRUE (the claim
asserts such a window clears the flag, i.e. the flag would be false). -/
theorem c2_title_mismatch_counterexample :
    (scan_windows ⟨1, 1, "A", 1, "app", ["c"]⟩ [5]
        [⟨5, 10, "B", 0, "app", ["c"]⟩]).no_need_to_move = true ∧
    (scan_windows ⟨1, 1, "A", 1, "app", ["c"]⟩ [5]
        [⟨5, 10, "B", 0, "app", ["c"]⟩]).moving_windows = [] := by
  constructor
  · rfl
  · rfl

/-! Retry wrapping (`_move_window_async`, lines 272-274) -/

/-- Outcome of one wrapped `_move_window` call, after its try/except clauses
(lines 330-334): the needs-retry signal is re-raised, any other exception is
caught and logged, a normal return completes. -/
inductive TaskOutcome where
  | raised_retry
  | completed
  | logged_failure
deriving DecidableEq, Repr

/-- The try/except wrapper of `_move_window`: the body either returns a
`MoveResult` (with the needs-retry signal modelled as the
`need_retry_raised` result) or raises some other exception
(`Except.error`), which is caught and logged without re-raising. -/
def move_window_wrapped (body : Except String MoveResult) : TaskOutcome :=
  match body with
  | Except.error _ => TaskOutcome.logged_failure
  | Except.ok MoveResult.need_retry_raised => TaskOutcome.raised_retry
  | Except.ok _ => TaskOutcome.completed

/-- Trace events of the retry driver. -/
inductive RetryEvent where
  | attempt_run (i : Nat)
  | sleep_between (d : Nat)
deriving DecidableEq, Repr

/-- Final fate of a move task. -/
inductive RetryResult where
  | finished
  | abandoned
  | failed
deriving DecidableEq, Repr

/-- Modelled from the spec: the repository's `utils/retry.py`
(`retry.Retry(6, 1).do_retry(...)`) is not under src/. Per the spec the task
retries "up to 6 times with a fixed inter-attempt delay of 1 time unit", the
needs-retry signal "is the only condition that triggers another attempt", and
exhaustion "must not raise past the worker" (the task is abandoned). `f i` is
the outcome of the i-th wrapped attempt; the second `Nat` is the remaining
attempt budget. -/
def do_retry (delay : Nat) (f : Nat → TaskOutcome) : Nat → Nat → List RetryEvent × RetryResult
  | _, 0 => ([], RetryResult.abandoned)
  | i, rem + 1 =>
    match f i with
    | TaskOutcome.raised_retry =>
      if rem = 0 then ([RetryEvent.attempt_run i], RetryResult.abandoned)
      else
        let rest := do_retry delay f (i + 1) rem
        (RetryEvent.attempt_run i :: RetryEvent.sleep_between delay :: rest.1, rest.2)
    | TaskOutcome.completed => ([RetryEvent.attempt_run i], RetryResult.finished)
    | TaskOutcome.logged_failure => ([RetryEvent.attempt_run i], RetryResult.failed)

/-- `_move_window_async`: `retry.Retry(6, 1).do_retry(self._move_window, ...)`. -/
def move_window_async_run (f : Nat → TaskOutcome) : List RetryEvent × RetryResult :=
  do_retry 1 f 0 6

/-- C4: (1) With a supplied pid, an exception-free attempt raises the
retryable needs-retry signal exactly when no window needing a move was found;
(2) a task whose every attempt raises the signal performs exactly 6 attempts,
each separated by a sleep of 1 time unit, then terminates abandoned without
raising; (3) any other exception is caught and logged; (4) a logged failure is
terminal: no further attempt and no propagation, and (5) only the needs-retry
signal triggers another attempt (a completed attempt also stops the task). -/
theorem c4_needs_retry_signal_and_bound :
    (∀ (env : MoveEnv) (r : WRecord) (p : Nat) (cache : List Nat), p ≠ 0 →
      (move_window_wrapped (Except.ok (move_window_body env r (some p) true cache)) =
          TaskOutcome.raised_retry ↔
        (move_scan env r (some p)).moving_windows = [])) ∧
    (∀ f, (∀ i, f i = TaskOutcome.raised_retry) →
      move_window_async_run f =
        ([RetryEvent.attempt_run 0, RetryEvent.sleep_between 1,
          RetryEvent.attempt_run 1, RetryEvent.sleep_between 1,
          RetryEvent.attempt_run 2, RetryEvent.sleep_between 1,
          RetryEvent.attempt_run 3, RetryEvent.sleep_between 1,
          RetryEvent.attempt_run 4, RetryEvent.sleep_between 1,
          RetryEvent.attempt_run 5], RetryResult.abandoned)) ∧
    (∀ e, move_window_wrapped (Except.error e) = TaskOutcome.logged_failure) ∧
    (∀ f i rem, f i = TaskOutcome.logged_failure →
      do_retry 1 f i (rem + 1) = ([RetryEvent.attempt_run i], RetryResult.failed)) ∧
    (∀ f i rem, f i = TaskOutcome.completed →
      do_retry 1 f i (rem + 1) = ([RetryEvent.attempt_run i], RetryResult.finished)) := by
  refine ⟨?_, ?_, ?_, ?_, ?_⟩
  · intro env r p cache hp
    have hne : candidate_pids env (some p) ≠ [] := by
      simp [candidate_pids, hp]
    constructor
    · intro h
      by_contra hmov
      rw [move_window_body, if_neg (fun hc => hne hc.1),
        if_neg (fun hc => hmov hc.2)] at h
      by_cases hfl : (move_scan env r (some p)).no_need_to_move
      · rw [if_pos hfl] at h
        simp [move_window_wrapped] at h
      · rw [if_neg hfl] at h
        simp [move_window_wrapped] at h
    · intro h
      rw [move_window_body, if_neg (fun hc => hne hc.1), if_pos ⟨rfl, h⟩]
      rfl
  · intro f hf
    rw [move_window_async_run]
    rw [show (6 : Nat) = 5 + 1 from rfl, do_retry, hf 0]
    rw [show (5 : Nat) = 4 + 1 from rfl, do_retry, hf 1]
    rw [show (4 : Nat) = 3 + 1 from rfl, do_retry, hf 2]
    rw [show (3 : Nat) = 2 + 1 from rfl, do_retry, hf 3]
    rw [show (2 : Nat) = 1 + 1 from rfl, do_retry, hf 4]
    rw [show (1 : Nat) = 0 + 1 from rfl, do_retry, hf 5]
    rfl
  · intro e
    rfl
  · intro f i rem h
    rw [do_retry, h]
  · intro f i rem h
    rw [do_retry, h]

/-- C4 witness: the retry driver run on an always-needs-retry task produces
exactly the 6-attempt, 1-unit-separated trace and is abandoned. -/
theorem c4_needs_retry_signal_and_bound_witness :
    move_window_async_run (fun _ => TaskOutcome.raised_retry) =
      ([RetryEvent.attempt_run 0, RetryEvent.sleep_between 1,
        RetryEvent.attempt_run 1, RetryEvent.sleep_between 1,
        RetryEvent.attempt_run 2, RetryEvent.sleep_between 1,
        RetryEvent.attempt_run 3, RetryEvent.sleep_between 1,
        RetryEvent.attempt_run 4, RetryEvent.sleep_between 1,
        RetryEvent.attempt_run 5], RetryResult.abandoned) :=
  c4_needs_retry_signal_and_bound.2.1 (fun _ => TaskOutcome.raised_retry)
    (fun _ => rfl)

/-! Workspace capacity scoping (`create_enough_workspaces`, lines 178-205) -/

/-- External workspace state: desktop-environment detection, current
workspace count, the dynamic-workspaces gsetting and the fixed
workspaces-number gsetting. -/
structure WorkspaceEnv where
  is_gnome : Bool
  workspace_count : Nat
  dynamic_workspaces : Bool
  num_workspaces : Nat
deriving DecidableEq, Repr

/-- Whether the scoped body completed normally or raised. -/
inductive BodyResult where
  | normal
  | raised
deriving DecidableEq, Repr

/-- Result of running the `create_enough_workspaces` context manager around a
body: the state in which the body ran, the state after scope exit, and
whether a body exception propagated past the scope. -/
structure ScopeRun where
  body_env : WorkspaceEnv
  final_env : WorkspaceEnv
  propagated : Bool
deriving DecidableEq, Repr

/-- `create_enough_workspaces(max_desktop_number)`: not on GNOME, or with
enough workspaces, a plain pass-through scope. Otherwise, with dynamic
workspaces enabled: disable them, set the fixed count, run the body with
`finally: enable_dynamic_workspaces()`, an outer `except Exception` swallowing
a body exception after the finally ran. With fixed-size workspaces: raise the
count if needed, no restoration, and a body exception propagates. -/
def create_enough_workspaces (st : WorkspaceEnv) (n : Nat) (body : BodyResult) :
    ScopeRun :=
  if st.is_gnome then
    if st.workspace_count ≥ n then ⟨st, st, body = BodyResult.raised⟩
    else if st.dynamic_workspaces then
      let st2 : WorkspaceEnv := ⟨st.is_gnome, st.workspace_count, false, n⟩
      let st3 : WorkspaceEnv := ⟨st.is_gnome, st.workspace_count, true, n⟩
      ⟨st2, st3, false⟩
    else
      let st' : WorkspaceEnv :=
        if n > st.num_workspaces then
          ⟨st.is_gnome, st.workspace_count, st.dynamic_workspaces, n⟩
        else st
      ⟨st', st', body = BodyResult.raised⟩
  else ⟨st, st, body = BodyResult.raised⟩

/-- C6: If dynamic workspace sizing is enabled and the current workspace count
is below the requirement when the capacity scope is entered, the body runs
with dynamic sizing disabled and the fixed count set to the requirement, and
dynamic sizing is re-enabled on scope exit whether the body completes normally
or raises. -/
theorem c6_dynamic_workspaces_reenabled (st : WorkspaceEnv) (n : Nat)
    (h1 : st.is_gnome = true) (h2 : st.workspace_count < n)
    (h3 : st.dynamic_workspaces = true) :
    ∀ body,
      (create_enough_workspaces st n body).body_env.dynamic_workspaces = false ∧
      (create_enough_workspaces st n body).body_env.num_workspaces = n ∧
      (create_enough_workspaces st n body).final_env.dynamic_workspaces = true := by
  intro body
  rw [create_enough_workspaces, if_pos h1, if_neg (by omega), if_pos h3]
  exact ⟨rfl, rfl, rfl⟩

/-- C6 witness: a concrete dynamic-workspace GNOME state below the required
count, for both body outcomes. -/
theorem c6_dynamic_workspaces_reenabled_witness :
    ((create_enough_workspaces ⟨true, 2, true, 2⟩ 4 BodyResult.normal).final_env.dynamic_workspaces = true) ∧
    ((create_enough_workspaces ⟨true, 2, true, 2⟩ 4 BodyResult.raised).final_env.dynamic_workspaces = true) :=
  ⟨(c6_dynamic_workspaces_reenabled ⟨true, 2, true, 2⟩ 4 rfl (by decide) rfl
      BodyResult.normal).2.2,
   (c6_dynamic_workspaces_reenabled ⟨true, 2, true, 2⟩ 4 rfl (by decide) rfl
      BodyResult.raised).2.2⟩

/-! Session store: `save_session` and `backup_session` (lines 39-121) -/

/-- A wall-clock instant as used by the two strftime formats. -/
structure DateTime where
  year : Nat
  month : Nat
  day : Nat
  hour : Nat
  minute : Nat
  second : Nat
  micro : Nat
deriving DecidableEq, Repr

/-- The `w` low-order decimal digits of `n`, most significant first
(zero-padded fixed-width strftime field). -/
def padDigits : Nat → Nat → List Nat
  | 0, _ => []
  | w + 1, n => padDigits w (n / 10) ++ [n % 10]

/-- Decimal digit to its ASCII character. -/
def digitChar (d : Nat) : Char := Char.ofNat (48 + d)

/-- A zero-padded `w`-wide decimal field. -/
def pad (w n : Nat) : List Char := (padDigits w n).map digitChar

/-- `strftime("%Y%m%d%H%M%S%f")` (line 104): the backup id has microsecond
(`%f`, 6-digit) resolution. -/
def backup_id_timestamp (t : DateTime) : List Char :=
  pad 4 t.year ++ pad 2 t.month ++ pad 2 t.day ++ pad 2 t.hour ++
    pad 2 t.minute ++ pad 2 t.second ++ pad 6 t.micro

/-- `strftime("%Y-%m-%d %H:%M:%S.%f")` (lines 55, 110). -/
def display_timestamp (t : DateTime) : List Char :=
  pad 4 t.year ++ ['-'] ++ pad 2 t.month ++ ['-'] ++ pad 2 t.day ++ [' '] ++
    pad 2 t.hour ++ [':'] ++ pad 2 t.minute ++ [':'] ++ pad 2 t.second ++
    ['.'] ++ pad 6 t.micro

/-- The persisted session document (`XSessionConfig`). -/
structure XSessionConfig where
  session_name : String
  session_create_time : Option (List Char)
  backup_time : Option (List Char)
  x_session_config_objects : List WRecord
deriving DecidableEq, Repr

/-- `Path(base_location_of_backup_sessions, basename + '.backup-' + id)`
(lines 104-106). -/
def backup_session_path (base_backup : List Char) (original_name : List Char)
    (t : DateTime) : List Char :=
  base_backup ++ ['/'] ++ original_name ++ (".backup-").toList ++
    backup_id_timestamp t

/-- `backup_session` (lines 99-113): load the existing file, stamp it with
the current time as `backup_time`, and write it to the backup path. Returns
(backup path, stamped document). -/
def backup_session (base_backup : List Char) (original_name : List Char)
    (cfg : XSessionConfig) (t : DateTime) : List Char × XSessionConfig :=
  (backup_session_path base_backup original_name t,
   { cfg with backup_time := some (display_timestamp t) })

/-- Filesystem writes performed by a save. -/
inductive SaveAction where
  | backup_write (path : List Char) (cfg : XSessionConfig)
  | write (path : List Char) (cfg : XSessionConfig)
deriving DecidableEq, Repr

/-- `save_session` (lines 39-59): when a file already exists at the session
path it is backed up first, then the freshly captured config, stamped with
`session_create_time`, is written to the session path. `t_backup` and
`t_save` are the two `time()` reads (lines 100 and 55). -/
def save_session (base : List Char) (base_backup : List Char)
    (session_name : List Char) (existing : Option XSessionConfig)
    (captured : XSessionConfig) (t_backup t_save : DateTime) : List SaveAction :=
  (match existing with
   | some old =>
     [SaveAction.backup_write (backup_session base_backup session_name old t_backup).1
        (backup_session base_backup session_name old t_backup).2]
   | none => []) ++
  [SaveAction.write (base ++ ['/'] ++ session_name)
    { captured with session_create_time := some (display_timestamp t_save) }]

lemma digitChar_inj : ∀ a < 10, ∀ b < 10, digitChar a = digitChar b → a = b := by
  decide

lemma padDigits_lt_ten (w n : Nat) : ∀ d ∈ padDigits w n, d < 10 := by
  induction w generalizing n with
  | zero => simp [padDigits]
  | succ w ih =>
    intro d hd
    simp only [padDigits, List.mem_append, List.mem_singleton] at hd
    rcases hd with hd | hd
    · exact ih (n / 10) d hd
    · omega

lemma map_digitChar_inj (xs ys : List Nat) (hx : ∀ d ∈ xs, d < 10)
    (hy : ∀ d ∈ ys, d < 10) (h : xs.map digitChar = ys.map digitChar) : xs = ys := by
  induction xs generalizing ys with
  | nil =>
    cases ys with
    | nil => rfl
    | cons b t => simp at h
  | cons a s ih =>
    cases ys with
    | nil => simp at h
    | cons b t =>
      simp only [List.map_cons, List.cons.injEq] at h
      have ha : a = b :=
        digitChar_inj a (hx a (by simp)) b (hy b (by simp)) h.1
      rw [ha, ih t (fun d hd => hx d (by simp [hd])) (fun d hd => hy d (by simp [hd])) h.2]

lemma padDigits_six_inj (m n : Nat) (hm : m < 1000000) (hn : n < 1000000)
    (h : padDigits 6 m = padDigits 6 n) : m = n := by
  simp [padDigits] at h
  omega

lemma pad_six_inj (m n : Nat) (hm : m < 1000000) (hn : n < 1000000)
    (h : pad 6 m = pad 6 n) : m = n :=
  padDigits_six_inj m n hm hn
    (map_digitChar_inj _ _ (padDigits_lt_ten 6 m) (padDigits_lt_ten 6 n) h)

lemma backup_path_split (bb name : List Char) (t : DateTime) :
    backup_session_path bb name t =
      (bb ++ ['/'] ++ name ++ (".backup-").toList ++ pad 4 t.year ++
        pad 2 t.month ++ pad 2 t.day ++ pad 2 t.hour ++ pad 2 t.minute ++
        pad 2 t.second) ++ pad 6 t.micro := by
  simp [backup_session_path, backup_id_timestamp, List.append_assoc]

/-- C9: When save finds an existing file, the backup write precedes the new
session write; the backup document is the loaded one with only `backup_time`
newly stamped; the backup filename is the original name suffixed with
`.backup-<YYYYMMDDHHMMSSffffff>` (microsecond resolution); and two backups in
the same wall-clock second but at different microseconds get distinct
filenames. -/
theorem c9_backup_before_write_and_unique (base bb name : List Char)
    (old captured : XSessionConfig) (t_b t_s : DateTime) :
    save_session base bb name (some old) captured t_b t_s =
      [SaveAction.backup_write (backup_session bb name old t_b).1
          (backup_session bb name old t_b).2,
        SaveAction.write (base ++ ['/'] ++ name)
          { captured with session_create_time := some (display_timestamp t_s) }] ∧
    ((backup_session bb name old t_b).2.session_name = old.session_name ∧
      (backup_session bb name old t_b).2.session_create_time = old.session_create_time ∧
      (backup_session bb name old t_b).2.x_session_config_objects =
        old.x_session_config_objects ∧
      (backup_session bb name old t_b).2.backup_time =
        some (display_timestamp t_b)) ∧
    (backup_session bb name old t_b).1 =
      bb ++ ['/'] ++ name ++ (".backup-").toList ++ backup_id_timestamp t_b ∧
    (∀ t₁ t₂ : DateTime, t₁.year = t₂.year → t₁.month = t₂.month →
      t₁.day = t₂.day → t₁.hour = t₂.hour → t₁.minute = t₂.minute →
      t₁.second = t₂.second → t₁.micro ≠ t₂.micro →
      t₁.micro < 1000000 → t₂.micro < 1000000 →
      backup_session_path bb name t₁ ≠ backup_session_path bb name t₂) := by
  refine ⟨rfl, ⟨rfl, rfl, rfl, rfl⟩, rfl, ?_⟩
  intro t₁ t₂ hy hmo hd hh hmi hs hmicro hm1 hm2 hcontra
  obtain ⟨y1, mo1, d1, h1, mi1, s1, u1⟩ := t₁
  obtain ⟨y2, mo2, d2, h2, mi2, s2, u2⟩ := t₂
  simp only at hy hmo hd hh hmi hs hmicro hm1 hm2
  subst hy hmo hd hh hmi hs
  rw [backup_path_split, backup_path_split] at hcontra
  simp only at hcontra
  exact hmicro (pad_six_inj u1 u2 hm1 hm2 (List.append_cancel_left hcontra))

/-- C9 witness: two concrete backups in the same second, one microsecond
apart, get distinct backup filenames. -/
theorem c9_backup_before_write_and_unique_witness :
    backup_session_path [] [] ⟨2024, 1, 2, 3, 4, 5, 0⟩ ≠
      backup_session_path [] [] ⟨2024, 1, 2, 3, 4, 5, 1⟩ :=
  (c9_backup_before_write_and_unique [] [] []
      ⟨"s", none, none, []⟩ ⟨"s", none, none, []⟩
      ⟨2024, 1, 2, 3, 4, 5, 0⟩ ⟨2024, 1, 2, 3, 4, 5, 0⟩).2.2.2
    ⟨2024, 1, 2, 3, 4, 5, 0⟩ ⟨2024, 1, 2, 3, 4, 5, 1⟩
    rfl rfl rfl rfl rfl rfl (by decide) (by decide) (by decide)

end XSession
